import Mathlib

/-!
Verification of the sbp-services duty-planning frontend and, where the
backend engine is only declared in the repository, of the behaviour the
design document specifies for it.

Dates are modelled as integer day numbers (days since the Unix epoch);
JavaScript `Date.getDay()` returns 0 for Sunday through 6 for Saturday,
and day 0 (1970-01-01) was a Thursday, so `getDay` on day number `n` is
`(n + 4) mod 7`.
-/

namespace SBP

/-- JavaScript `Date.prototype.getDay`: 0 = Sunday … 6 = Saturday.
Day 0 of the epoch was a Thursday (weekday 4). -/
def jsGetDay (d : ℤ) : ℤ := (d + 4) % 7

/-- Function `getMonday` from `src/unnamed/part_004` (Dashboard helpers):
`const day = date.getDay(); const diff = date.getDate() - day + (day === 0 ? -6 : 1);
return new Date(date.setDate(diff));` — on day numbers the net effect is
`d - day + (day = 0 ? -6 : 1)`. -/
def getMonday (d : ℤ) : ℤ :=
  d - jsGetDay d + (if jsGetDay d = 0 then -6 else 1)

/-- Function `weekdayMondayBased` from `src/frontend/src/pages/Dashboard.tsx`:
`const d = new Date(year, month, day).getDay(); return d === 0 ? 6 : d - 1;` -/
def weekdayMondayBased (d : ℤ) : ℤ :=
  if jsGetDay d = 0 then 6 else jsGetDay d - 1

/-- Type `EventStatus` from `src/frontend/src/types/index.ts`:
`export type EventStatus = "fest" | "geplant" | "moeglich";` -/
inductive EventStatus where
  | fest
  | geplant
  | moeglich
deriving DecidableEq, Repr

/-- The fields of `SBPEvent` (`src/frontend/src/types/index.ts`) that the
dashboard aggregations and the validation engine read: identity, date,
duty type, formation and status. -/
structure SBPEvent where
  id : ℤ
  event_date : ℤ
  dienst_type : String
  formation : String
  status : EventStatus
deriving DecidableEq, Repr

/-- One step of the `weeklyLoad` fold from `src/unnamed/part_004`:
`map.set(key, (map.get(key) || 0) + 1)` with `key = getMonday(event_date)`.
The `Map` is modelled as a total function from Monday day numbers to counts,
with the `|| 0` default built into the initial map. -/
def weeklyLoadMap : List SBPEvent → (ℤ → ℕ) → (ℤ → ℕ)
  | [], m => m
  | e :: rest, m =>
      weeklyLoadMap rest (fun k => if k = getMonday e.event_date then m k + 1 else m k)

/-- Aggregation `weeklyLoad` from `src/unnamed/part_004` (`// Dienste pro
Woche berechnen (vereinfacht: Anzahl Events)`): fold all events into an
empty map, each event incrementing the bucket of its week's Monday by one. -/
def weeklyLoad (events : List SBPEvent) : ℤ → ℕ :=
  weeklyLoadMap events (fun _ => 0)

/-- The weight table the specification prescribes for the weekly limit check:
fixed = 1, planned = 1, possible = `w` (a configured weight below 1). -/
def statusWeight (w : ℚ) : EventStatus → ℚ
  | .fest => 1
  | .geplant => 1
  | .moeglich => w

/-- The weekly count the specification describes: the sum of per-status
weights over the duties whose date falls into the week of Monday `k`. -/
def weightedCount (w : ℚ) (events : List SBPEvent) (k : ℤ) : ℚ :=
  ((events.filter (fun e => getMonday e.event_date == k)).map
    (fun e => statusWeight w e.status)).sum

/-- Aggregation `stats` from `src/unnamed/part_004` (Quick-Stats): total
number of events and the number of events of each status. -/
def stats (events : List SBPEvent) : ℕ × ℕ × ℕ × ℕ :=
  (events.length,
   (events.filter (fun e => e.status == .fest)).length,
   (events.filter (fun e => e.status == .geplant)).length,
   (events.filter (fun e => e.status == .moeglich)).length)

/-- Entry shape `MusicianEntry` from `src/unnamed/part_006` (MusikerArea). -/
structure MusicianEntry where
  id : ℤ
  display_name : String
  is_vakant : Bool
  has_individual_pdf : Bool
deriving DecidableEq, Repr

/-- The last-name extraction used by MusikerArea:
`m.display_name.split(" ").pop() || ""` — the final piece of the
space-separated split (the split is never empty, and `|| ""` maps a
falsy empty result to the empty string). -/
def lastToken (s : String) : String :=
  (s.splitOn " ").getLastD ""

/-- The letter comparison from `filteredMusicians` in `src/unnamed/part_006`:
`nachname[0]?.toUpperCase() === filterLetter` — the first character of the
last name, uppercased, compared to the filter letter; `false` when the last
name is empty. -/
def letterMatches (name : String) (filterLetter : String) : Bool :=
  match (lastToken name).data.head? with
  | some c => String.singleton c.toUpper == filterLetter
  | none => false

/-- Selection `filteredMusicians` from `src/unnamed/part_006`: no letter →
whole list; letter "V" → vacant entries; any other letter → non-vacant
entries whose last name starts (uppercased) with that letter. -/
def filteredMusicians (musicians : List MusicianEntry) (filterLetter : String) :
    List MusicianEntry :=
  if filterLetter = "" then musicians
  else if filterLetter = "V" then musicians.filter (fun m => m.is_vakant)
  else musicians.filter (fun m => !m.is_vakant && letterMatches m.display_name filterLetter)

/-- The local-storage entries the API client touches
(`src/frontend/src/api/client.ts`): the JWT token and the serialized user. -/
structure LocalStorage where
  sbp_token : Option String
  sbp_user : Option String
deriving DecidableEq, Repr

/-- The shape of an axios rejection as read by the response interceptor:
`error.response?.status` and `error.config?.url`. -/
structure ApiError where
  status : Option ℕ
  url : Option String
deriving DecidableEq, Repr

/-- Contiguous-subsequence search: does `sub` occur inside the second list? -/
def containsSeq (sub : List Char) : List Char → Bool
  | [] => sub.isEmpty
  | c :: rest => sub.isPrefixOf (c :: rest) || containsSeq sub rest

/-- JavaScript `String.prototype.includes`: substring containment. -/
def strIncludes (s sub : String) : Bool :=
  containsSeq sub.data s.data

/-- The 401 response interceptor from `src/frontend/src/api/client.ts`:
on a 401 whose URL is neither a login nor a setup request, remove
`sbp_token` and `sbp_user` from local storage (the `window.location.reload()`
is outside the model); in every case return `Promise.reject(error)`,
modelled as handing the original error back. -/
def responseErrorInterceptor (e : ApiError) (st : LocalStorage) :
    LocalStorage × ApiError :=
  if e.status = some 401 then
    let url := e.url.getD ""
    if !strIncludes url "/auth/login" && !strIncludes url "/auth/setup" then
      ({ sbp_token := none, sbp_user := none }, e)
    else (st, e)
  else (st, e)

/-- Summary shape `IndividualPlanSummary` from
`src/frontend/src/types/index.ts`. -/
structure IndividualPlanSummary where
  id : ℤ
  display_name : String
  is_vakant : Bool
  has_docx : Bool
  has_pdf : Bool
deriving DecidableEq, Repr

/-- Lifecycle status of a `GeneratedPlan` (spec §3): pending, generating,
ready or error.  `src/frontend/src/types/index.ts` types it as `string`;
the spec enumerates these four values. -/
inductive PlanStatus where
  | pending
  | generating
  | ready
  | error
deriving DecidableEq, Repr

/-- Record shape `GeneratedPlan` from `src/frontend/src/types/index.ts`. -/
structure GeneratedPlan where
  id : ℤ
  season_id : Option ℤ
  plan_start : ℤ
  plan_end : ℤ
  status : PlanStatus
  has_collective_docx : Bool
  has_collective_pdf : Bool
  individual_count : ℕ
  created_at : ℤ
  individual_plans : List IndividualPlanSummary
deriving DecidableEq, Repr

/-- The condition under which the Generator page (`src/unnamed/part_002`)
renders the individual-PDF download link for one summary entry:
`{ip.has_docx && (<a href=...individual.pdf>PDF</a>)}`. -/
def showsIndividualPdfLink (ip : IndividualPlanSummary) : Bool :=
  ip.has_docx

/-- The list of summary entries for which the Generator page offers the
individual-PDF download: each entry passing `showsIndividualPdfLink`. -/
def individualPdfLinks (plans : List IndividualPlanSummary) :
    List IndividualPlanSummary :=
  plans.filter showsIndividualPdfLink

/-- A roster entry as returned by the Membership Resolver (spec §6):
`roster(date_range) -> [{member_id, display_name, is_vacant}]`. -/
structure Member where
  member_id : ℤ
  display_name : String
  is_vacant : Bool
deriving DecidableEq, Repr

/-- The outcome of the external Document Renderer / Format Converter for one
generation run (spec §6): whether the collective render and conversion
succeed, and whether each member's individual render and conversion succeed. -/
structure RenderOutcome where
  collectiveRenderOk : Bool
  collectiveConvertOk : Bool
  individualRenderOk : ℤ → Bool
  individualConvertOk : ℤ → Bool

/-- Modelled from the spec: step 5 of the Duty-Plan Generation Pipeline
(§4.2) for one roster member — render and convert independently; a failure
is recorded only on that member's summary, whose artifact flags are left
false.  The pipeline itself is backend code not present under `src/`. -/
def mkIndividualSummary (oc : RenderOutcome) (m : Member) : IndividualPlanSummary :=
  { id := m.member_id
    display_name := m.display_name
    is_vakant := m.is_vacant
    has_docx := oc.individualRenderOk m.member_id
    has_pdf := oc.individualRenderOk m.member_id && oc.individualConvertOk m.member_id }

/-- Modelled from the spec: steps 3–6 of the Duty-Plan Generation Pipeline
(§4.2), whose backend implementation is not present under `src/`.  If the
collective render or conversion fails, the whole plan is marked `error`, no
partial collective artifact is retained and no individual plans are
attempted; otherwise every roster member (vacancies included) is processed
independently and the plan ends `ready` regardless of individual failures. -/
def runGeneration (oc : RenderOutcome) (roster : List Member)
    (plan : GeneratedPlan) : GeneratedPlan :=
  if oc.collectiveRenderOk && oc.collectiveConvertOk then
    { plan with
      status := .ready
      has_collective_docx := true
      has_collective_pdf := true
      individual_plans := roster.map (mkIndividualSummary oc)
      individual_count := roster.length }
  else
    { plan with
      status := .error
      has_collective_docx := false
      has_collective_pdf := false
      individual_plans := []
      individual_count := 0 }

/-- The Plan Registry (spec §6): stored generation-job records and the next
free plan identity. -/
structure Registry where
  nextId : ℤ
  plans : List GeneratedPlan

/-- A registry is well formed when every stored plan's identity is below the
next free identity. -/
def Registry.WF (reg : Registry) : Prop :=
  ∀ p ∈ reg.plans, p.id < reg.nextId

/-- Modelled from the spec: `generate(season_id, start_date, end_date)` of
the Duty-Plan Generation Pipeline (§4.2, steps 1–6), whose backend
implementation is not present under `src/`.  Each invocation creates a new
GeneratedPlan record under a fresh identity, runs the pipeline, and persists
the final record; there is no deduplication by date range. -/
def generate (oc : RenderOutcome) (roster : List Member) (season_id : Option ℤ)
    (start_date end_date now : ℤ) (reg : Registry) : GeneratedPlan × Registry :=
  let newPlan : GeneratedPlan :=
    { id := reg.nextId
      season_id := season_id
      plan_start := start_date
      plan_end := end_date
      status := .pending
      has_collective_docx := false
      has_collective_pdf := false
      individual_count := 0
      created_at := now
      individual_plans := [] }
  let final := runGeneration oc roster { newPlan with status := .generating }
  (final, { nextId := reg.nextId + 1, plans := reg.plans ++ [final] })

/-- Modelled from the spec: the `get_plan(id)` read accessor (§4.2/§6). -/
def getPlan (reg : Registry) (planId : ℤ) : Option GeneratedPlan :=
  reg.plans.find? (fun p => p.id == planId)

/-- Violation severity from `src/frontend/src/types/index.ts`:
`severity: "ERROR" | "WARNING" | "INFO"`. -/
inductive Severity where
  | ERROR
  | WARNING
  | INFO
deriving DecidableEq, Repr

/-- Overall validation status from `src/frontend/src/types/index.ts`:
`status: "ok" | "warning" | "error"`. -/
inductive OverallStatus where
  | ok
  | warning
  | error
deriving DecidableEq, Repr

/-- Record shape `Violation` from `src/frontend/src/types/index.ts`. -/
structure Violation where
  rule_id : String
  rule_name : String
  severity : Severity
  message : String
  tvk_paragraph : String
  affected_dates : List ℤ
  affected_week : Option ℤ
  current_value : Option ℚ
  limit_value : Option ℚ
  suggestion : String
deriving DecidableEq, Repr

/-- Record shape `ValidationResult` from `src/frontend/src/types/index.ts`;
the `Record<string, number>` summary is modelled as an association list. -/
structure ValidationResult where
  status : OverallStatus
  week_start : ℤ
  week_end : ℤ
  total_dienste : ℚ
  max_dienste : ℚ
  violations : List Violation
  summary : List (String × ℕ)
deriving DecidableEq, Repr

/-- Modelled from the spec: the explicit `SeasonContext` configuration (§9)
carried into every validation call — the configurable per-formation weekly
limit table and the weighting for `possible`-status duties. -/
structure EngineConfig where
  possibleWeight : ℚ
  limitFor : String → ℚ

/-- Modelled from the spec: the status of an issued violation is downgraded
to the overall result status — ERROR → error, WARNING → warning, and INFO
"never affects overall status" (§4.1), so it maps to ok. -/
def severityToStatus : Severity → OverallStatus
  | .ERROR => .error
  | .WARNING => .warning
  | .INFO => .ok

/-- Numeric rank of a severity, INFO lowest. -/
def severityRank : Severity → ℕ
  | .INFO => 0
  | .WARNING => 1
  | .ERROR => 2

/-- The more severe of two severities. -/
def maxSev (a b : Severity) : Severity :=
  if severityRank a ≤ severityRank b then b else a

/-- The maximum severity of a list, INFO when the list is empty (INFO is
exactly the severity that does not affect the overall status). -/
def maxSeverityD (l : List Severity) : Severity :=
  l.foldr maxSev .INFO

/-- Modelled from the spec: "Overall status is the maximum severity across
all produced Violations, defaulting to `ok`" with INFO never affecting the
overall status (§4.1). -/
def overallStatus (vs : List Violation) : OverallStatus :=
  if vs.any (fun v => v.severity == .ERROR) then .error
  else if vs.any (fun v => v.severity == .WARNING) then .warning
  else .ok

/-- Weighted total of a list of duties under the configured weight for
`possible`-status duties. -/
def weightedTotal (w : ℚ) (duties : List SBPEvent) : ℚ :=
  (duties.map (fun e => statusWeight w e.status)).sum

/-- Modelled from the spec: the Compliance Validation Engine (§4.1), whose
backend implementation is not present under `src/` (only its result types
and its caller are).  The candidate duty is resolved to its Monday-start
week, counted together with the stored duties of that week at the
status-dependent weights, compared to the formation's configured limit
(rule 1, with the spec's severity policy), an INFO advisory is attached for
merely `possible` candidates, and the overall status is derived from the
produced violations.  The engine is a pure function of its inputs. -/
def validate (cfg : EngineConfig) (store : List SBPEvent) (duty : SBPEvent) :
    ValidationResult :=
  let monday := getMonday duty.event_date
  let weekDuties := (duty :: store).filter (fun e => getMonday e.event_date == monday)
  let limit := cfg.limitFor duty.formation
  let total := weightedTotal cfg.possibleWeight weekDuties
  let hasProvisional := weekDuties.any (fun e => e.status == .geplant || e.status == .moeglich)
  let onlyCommitted := weekDuties.all (fun e => e.status == .fest || e.status == .geplant)
  let ceiling : List Violation :=
    if limit ≤ total ∧ onlyCommitted then
      [{ rule_id := "weekly_ceiling", rule_name := "Woechentliche Dienstobergrenze",
         severity := .ERROR, message := "Obergrenze erreicht", tvk_paragraph := "TVK",
         affected_dates := [duty.event_date], affected_week := some monday,
         current_value := some total, limit_value := some limit,
         suggestion := "Dienst verschieben" }]
    else if limit - 1 ≤ total ∧ hasProvisional then
      [{ rule_id := "weekly_ceiling", rule_name := "Woechentliche Dienstobergrenze",
         severity := .WARNING, message := "Obergrenze fast erreicht", tvk_paragraph := "TVK",
         affected_dates := [duty.event_date], affected_week := some monday,
         current_value := some total, limit_value := some limit,
         suggestion := "Planung pruefen" }]
    else []
  let advisory : List Violation :=
    if duty.status == .moeglich then
      [{ rule_id := "provisional_duty", rule_name := "Vorlaeufiger Dienst",
         severity := .INFO, message := "Dienst ist nur moeglich", tvk_paragraph := "TVK",
         affected_dates := [duty.event_date], affected_week := some monday,
         current_value := none, limit_value := none, suggestion := "" }]
    else []
  let violations := ceiling ++ advisory
  { status := overallStatus violations
    week_start := monday
    week_end := monday + 6
    total_dienste := total
    max_dienste := limit
    violations := violations
    summary :=
      [("fest", (weekDuties.filter (fun e => e.status == .fest)).length),
       ("geplant", (weekDuties.filter (fun e => e.status == .geplant)).length),
       ("moeglich", (weekDuties.filter (fun e => e.status == .moeglich)).length)] }

/-- The caller-visible validation call against the Event Store state: the
engine reads the store and returns the result together with the store it
leaves behind (spec §4.1: "it performs no writes"). -/
def validateCall (cfg : EngineConfig) (store : List SBPEvent) (duty : SBPEvent) :
    ValidationResult × List SBPEvent :=
  (validate cfg store duty, store)

end SBP

theorem weeklyLoadMap_eq (events : List SBP.SBPEvent) (m : ℤ → ℕ) (k : ℤ) :
    SBP.weeklyLoadMap events m k =
      m k + (events.filter (fun e => SBP.getMonday e.event_date == k)).length := by
  induction events generalizing m with
  | nil => simp [SBP.weeklyLoadMap]
  | cons e rest ih =>
      simp only [SBP.weeklyLoadMap, List.filter_cons]
      rw [ih]
      by_cases h : SBP.getMonday e.event_date = k
      · simp [h]
        omega
      · simp [h, Ne.symm h]

theorem getMonday_eq_iff_mem_week (d k : ℤ) (hk : SBP.jsGetDay k = 1) :
    SBP.getMonday d = k ↔ k ≤ d ∧ d ≤ k + 6 := by
  unfold SBP.getMonday SBP.jsGetDay at *
  omega

theorem length_filter_status (events : List SBP.SBPEvent) :
    events.length =
      (events.filter (fun e => e.status == .fest)).length +
      (events.filter (fun e => e.status == .geplant)).length +
      (events.filter (fun e => e.status == .moeglich)).length := by
  induction events with
  | nil => simp
  | cons e rest ih =>
      simp only [List.filter_cons, List.length_cons]
      cases e.status <;>
        simp only [beq_self_eq_true, if_true, beq_iff_eq, reduceCtorEq, if_false,
          decide_eq_true_eq, List.length_cons, reduceIte] <;>
        omega

theorem letterMatches_iff (name L : String) :
    SBP.letterMatches name L = true ↔
      ∃ c0, (SBP.lastToken name).data.head? = some c0 ∧
        String.singleton c0.toUpper = L := by
  unfold SBP.letterMatches
  cases h : (SBP.lastToken name).data.head? with
  | none => simp [h]
  | some c0 => simp [h, beq_iff_eq]

theorem string_singleton_inj (a b : Char) :
    String.singleton a = String.singleton b ↔ a = b := by
  simp [String.singleton, String.ext_iff]

/-- C3: for every calendar date `d`, `getMonday d` is a Monday (weekday 1 in
Sunday-based counting, 0 in Monday-based counting), `d` lies inside the 7-day
window starting at it, and a Sunday is mapped six days back to the preceding
Monday. -/
theorem getMonday_is_week_start (d : ℤ) :
    SBP.jsGetDay (SBP.getMonday d) = 1 ∧
    SBP.weekdayMondayBased (SBP.getMonday d) = 0 ∧
    SBP.getMonday d ≤ d ∧ d ≤ SBP.getMonday d + 6 ∧
    (SBP.jsGetDay d = 0 → SBP.getMonday d = d - 6) := by
  unfold SBP.getMonday SBP.weekdayMondayBased SBP.jsGetDay
  omega

/-- Witness for C3 at the concrete Sunday `d = 3` (1970-01-04): the Sunday
branch of the theorem fires and maps it back to day `-3`. -/
theorem getMonday_is_week_start_witness :
    SBP.jsGetDay (SBP.getMonday 3) = 1 ∧
    SBP.weekdayMondayBased (SBP.getMonday 3) = 0 ∧
    SBP.getMonday 3 ≤ 3 ∧ (3 : ℤ) ≤ SBP.getMonday 3 + 6 ∧
    (SBP.jsGetDay 3 = 0 → SBP.getMonday 3 = 3 - 6) :=
  getMonday_is_week_start 3

/-- C1, counterexample: the dashboard's weekly load is NOT a status-weighted
sum. For the single `moeglich` duty on Monday day 4 (1970-01-05) the code
counts 1, but no weight `w < 1` makes the specified weighted sum equal 1. -/
theorem weeklyLoad_not_status_weighted :
    ¬ ∃ w : ℚ, w < 1 ∧
      (SBP.weeklyLoad [⟨1, 4, "Konzert", "SBP", .moeglich⟩] 4 : ℚ) =
        SBP.weightedCount w [⟨1, 4, "Konzert", "SBP", .moeglich⟩] 4 := by
  rintro ⟨w, hw, h⟩
  have h1 : SBP.weeklyLoad [⟨1, 4, "Konzert", "SBP", .moeglich⟩] 4 = 1 := by decide
  have hf : SBP.getMonday 4 = 4 := by decide
  have h2 : SBP.weightedCount w [⟨1, 4, "Konzert", "SBP", .moeglich⟩] 4 = w := by
    simp [SBP.weightedCount, hf, SBP.statusWeight]
  rw [h1, h2] at h
  push_cast at h
  linarith

/-- C1, amended: for every Monday `k` and every set of duties, the weekly
load used by the dashboard equals the plain number of duties — every status,
`moeglich` included, counting at weight 1 — whose date falls in the
Monday–Sunday window starting at `k`. -/
theorem weeklyLoad_counts_week_events (events : List SBP.SBPEvent) (k : ℤ)
    (hk : SBP.jsGetDay k = 1) :
    SBP.weeklyLoad events k =
      (events.filter (fun e => decide (k ≤ e.event_date ∧ e.event_date ≤ k + 6))).length := by
  unfold SBP.weeklyLoad
  rw [weeklyLoadMap_eq]
  simp only [Nat.zero_add]
  congr 1
  apply List.filter_congr
  intro e _
  rw [Bool.eq_iff_iff]
  simp only [beq_iff_eq, decide_eq_true_eq]
  exact getMonday_eq_iff_mem_week e.event_date k hk

/-- Witness for the amended C1 at Monday `k = 4` with one duty inside and one
outside the window. -/
theorem weeklyLoad_counts_week_events_witness :
    SBP.jsGetDay 4 = 1 ∧
    SBP.weeklyLoad [⟨1, 5, "Probe", "SBP", .fest⟩, ⟨2, 20, "Probe", "SBP", .fest⟩] 4 =
      ([⟨1, 5, "Probe", "SBP", .fest⟩, ⟨2, 20, "Probe", "SBP", .fest⟩].filter
        (fun e : SBP.SBPEvent =>
          decide ((4 : ℤ) ≤ e.event_date ∧ e.event_date ≤ 4 + 6))).length :=
  ⟨by decide,
   weeklyLoad_counts_week_events
     [⟨1, 5, "Probe", "SBP", .fest⟩, ⟨2, 20, "Probe", "SBP", .fest⟩] 4 (by decide)⟩

/-- C10: the dashboard quick-stats partition the event list — `total` equals
`fest + geplant + moeglich` for every event list, because every event's
status is one of the three enumerated values. -/
theorem stats_partition (events : List SBP.SBPEvent) :
    (SBP.stats events).1 =
      (SBP.stats events).2.1 + (SBP.stats events).2.2.1 + (SBP.stats events).2.2.2 := by
  simpa [SBP.stats] using length_filter_status events

/-- C9: the musician-directory filter — the empty selection returns the whole
roster; "V" selects exactly the vacant entries; any other selectable letter
(an uppercase letter `c` other than `V`) selects exactly the non-vacant
entries whose last name begins, case-insensitively, with that letter; and
every selection is an order-preserving sublist of the roster. -/
theorem filteredMusicians_spec (ms : List SBP.MusicianEntry) (c : Char)
    (hc : c.toUpper = c) (hv : c ≠ 'V') :
    SBP.filteredMusicians ms "" = ms ∧
    (∀ m, m ∈ SBP.filteredMusicians ms "V" ↔ m ∈ ms ∧ m.is_vakant = true) ∧
    (∀ m, m ∈ SBP.filteredMusicians ms (String.singleton c) ↔
      m ∈ ms ∧ m.is_vakant = false ∧
      ∃ c0, (SBP.lastToken m.display_name).data.head? = some c0 ∧ c0.toUpper = c.toUpper) ∧
    (∀ L : String, (SBP.filteredMusicians ms L).Sublist ms) := by
  have hne : String.singleton c ≠ "" := by
    simp [String.singleton, String.ext_iff]
  have hnv : String.singleton c ≠ "V" := by
    intro h
    apply hv
    have h2 := congrArg String.data h
    have h3 : ("V" : String).data = ['V'] := rfl
    rw [h3] at h2
    simpa [String.singleton] using h2
  refine ⟨by simp [SBP.filteredMusicians], ?_, ?_, ?_⟩
  · intro m
    have : ("V" : String) ≠ "" := by decide
    simp [SBP.filteredMusicians, this, List.mem_filter]
  · intro m
    simp only [SBP.filteredMusicians, if_neg hne, if_neg hnv, List.mem_filter,
      Bool.and_eq_true, Bool.not_eq_true']
    rw [letterMatches_iff]
    constructor
    · rintro ⟨hm, hvk, c0, hhead, hsing⟩
      rw [string_singleton_inj] at hsing
      exact ⟨hm, hvk, c0, hhead, by rw [hsing, hc]⟩
    · rintro ⟨hm, hvk, c0, hhead, hup⟩
      rw [hc] at hup
      exact ⟨hm, hvk, c0, hhead, by rw [string_singleton_inj]; exact hup⟩
  · intro L
    unfold SBP.filteredMusicians
    split
    · exact List.Sublist.refl ms
    · split
      · exact List.filter_sublist ms
      · exact List.filter_sublist ms

/-- Witness for C9 at letter `M` over a three-entry roster containing one
vacant slot, one matching musician and one non-matching musician. -/
theorem filteredMusicians_spec_witness :
    ('M'.toUpper = 'M' ∧ 'M' ≠ 'V') ∧
    (SBP.filteredMusicians
        [⟨1, "Anna Maier", false, true⟩, ⟨2, "Vakant", true, false⟩,
         ⟨3, "Jo Berg", false, true⟩] "" =
      [⟨1, "Anna Maier", false, true⟩, ⟨2, "Vakant", true, false⟩,
       ⟨3, "Jo Berg", false, true⟩] ∧
     (∀ m, m ∈ SBP.filteredMusicians
        [⟨1, "Anna Maier", false, true⟩, ⟨2, "Vakant", true, false⟩,
         ⟨3, "Jo Berg", false, true⟩] "V" ↔
        m ∈ [⟨1, "Anna Maier", false, true⟩, ⟨2, "Vakant", true, false⟩,
          ⟨3, "Jo Berg", false, true⟩] ∧ m.is_vakant = true) ∧
     (∀ m, m ∈ SBP.filteredMusicians
        [⟨1, "Anna Maier", false, true⟩, ⟨2, "Vakant", true, false⟩,
         ⟨3, "Jo Berg", false, true⟩] (String.singleton 'M') ↔
        m ∈ [⟨1, "Anna Maier", false, true⟩, ⟨2, "Vakant", true, false⟩,
          ⟨3, "Jo Berg", false, true⟩] ∧ m.is_vakant = false ∧
        ∃ c0, (SBP.lastToken m.display_name).data.head? = some c0 ∧
          c0.toUpper = 'M'.toUpper) ∧
     (∀ L : String, (SBP.filteredMusicians
        [⟨1, "Anna Maier", false, true⟩, ⟨2, "Vakant", true, false⟩,
         ⟨3, "Jo Berg", false, true⟩] L).Sublist
        [⟨1, "Anna Maier", false, true⟩, ⟨2, "Vakant", true, false⟩,
         ⟨3, "Jo Berg", false, true⟩])) :=
  ⟨⟨by decide, by decide⟩,
   filteredMusicians_spec
     [⟨1, "Anna Maier", false, true⟩, ⟨2, "Vakant", true, false⟩,
      ⟨3, "Jo Berg", false, true⟩] 'M' (by decide) (by decide)⟩

/-- C8: on a 401 response whose request URL contains neither "/auth/login"
nor "/auth/setup" the interceptor clears both `sbp_token` and `sbp_user`;
a 401 on a login or setup URL leaves the storage unchanged; and in every
case the original error is handed back (rejected) unmodified. -/
theorem interceptor_401_behaviour (e : SBP.ApiError) (st : SBP.LocalStorage) :
    (SBP.responseErrorInterceptor e st).2 = e ∧
    (e.status = some 401 →
      ((SBP.strIncludes (e.url.getD "") "/auth/login" = false ∧
        SBP.strIncludes (e.url.getD "") "/auth/setup" = false) →
        (SBP.responseErrorInterceptor e st).1 = ⟨none, none⟩) ∧
      ((SBP.strIncludes (e.url.getD "") "/auth/login" = true ∨
        SBP.strIncludes (e.url.getD "") "/auth/setup" = true) →
        (SBP.responseErrorInterceptor e st).1 = st)) := by
  unfold SBP.responseErrorInterceptor
  by_cases h : e.status = some 401
  · simp only [h, if_true]
    refine ⟨?_, fun _ => ⟨?_, ?_⟩⟩
    · split <;> rfl
    · rintro ⟨h1, h2⟩
      simp [h1, h2]
    · rintro (h1 | h1) <;> simp [h1]
  · simp [h]

/-- Witness for C8: a 401 on "/events" clears the storage, a 401 on
"/auth/login" keeps it, and both reject with the original error. -/
theorem interceptor_401_behaviour_witness :
    ((SBP.responseErrorInterceptor ⟨some 401, some "/events"⟩
        ⟨some "tok", some "usr"⟩).2 = ⟨some 401, some "/events"⟩ ∧
      (((some 401 : Option ℕ) = some 401) →
        ((SBP.strIncludes ((some "/events").getD "") "/auth/login" = false ∧
          SBP.strIncludes ((some "/events").getD "") "/auth/setup" = false) →
          (SBP.responseErrorInterceptor ⟨some 401, some "/events"⟩
            ⟨some "tok", some "usr"⟩).1 = ⟨none, none⟩) ∧
        ((SBP.strIncludes ((some "/events").getD "") "/auth/login" = true ∨
          SBP.strIncludes ((some "/events").getD "") "/auth/setup" = true) →
          (SBP.responseErrorInterceptor ⟨some 401, some "/events"⟩
            ⟨some "tok", some "usr"⟩).1 = ⟨some "tok", some "usr"⟩))) ∧
    (SBP.responseErrorInterceptor ⟨some 401, some "/auth/login"⟩
        ⟨some "tok", some "usr"⟩).1 = ⟨some "tok", some "usr"⟩ :=
  ⟨interceptor_401_behaviour ⟨some 401, some "/events"⟩ ⟨some "tok", some "usr"⟩,
   by decide⟩

/-- C5, counterexample: the detail view's individual-PDF link is gated on
`has_docx`, not on `has_pdf` — for a member whose `has_pdf` flag is set but
whose `has_docx` flag is not, no download is offered. -/
theorem individualPdfLink_not_gated_on_pdf :
    ¬ (SBP.showsIndividualPdfLink ⟨5, "Anna Maier", false, false, true⟩ = true ↔
       (⟨5, "Anna Maier", false, false, true⟩ : SBP.IndividualPlanSummary).has_pdf
         = true) := by
  decide

/-- C5, amended: the plan detail view offers a member's individual-PDF
download if and only if that member's `has_docx` flag is set. -/
theorem individualPdfLink_iff_docx (plans : List SBP.IndividualPlanSummary)
    (ip : SBP.IndividualPlanSummary) :
    ip ∈ SBP.individualPdfLinks plans ↔ ip ∈ plans ∧ ip.has_docx = true := by
  simp [SBP.individualPdfLinks, SBP.showsIndividualPdfLink, List.mem_filter]

theorem maxSev_eq_error_iff (a b : SBP.Severity) :
    SBP.maxSev a b = .ERROR ↔ a = .ERROR ∨ b = .ERROR := by
  cases a <;> cases b <;> decide

theorem maxSev_error_left (b : SBP.Severity) : SBP.maxSev .ERROR b = .ERROR := by
  cases b <;> rfl

theorem maxSev_info_left (b : SBP.Severity) : SBP.maxSev .INFO b = b := by
  cases b <;> rfl

theorem maxSev_warn_left (b : SBP.Severity) :
    SBP.maxSev .WARNING b = (if b = .ERROR then .ERROR else .WARNING) := by
  cases b <;> rfl

theorem maxSeverityD_eq_error_iff (l : List SBP.Severity) :
    SBP.maxSeverityD l = .ERROR ↔ .ERROR ∈ l := by
  induction l with
  | nil => simp [SBP.maxSeverityD]
  | cons s rest ih =>
      simp only [SBP.maxSeverityD, List.foldr_cons] at ih ⊢
      rw [maxSev_eq_error_iff, ih, List.mem_cons]
      tauto

theorem any_severity_error_iff (rest : List SBP.Violation) :
    rest.any (fun v => v.severity == SBP.Severity.ERROR) = true ↔
      SBP.maxSeverityD (rest.map (fun v => v.severity)) = .ERROR := by
  rw [maxSeverityD_eq_error_iff, List.any_eq_true]
  constructor
  · rintro ⟨v, hv, h⟩
    rw [beq_iff_eq] at h
    exact List.mem_map.mpr ⟨v, hv, h⟩
  · intro h
    obtain ⟨v, hv, h2⟩ := List.mem_map.mp h
    exact ⟨v, hv, by rw [beq_iff_eq, h2]⟩

theorem overallStatus_eq_max (vs : List SBP.Violation) :
    SBP.overallStatus vs =
      SBP.severityToStatus (SBP.maxSeverityD (vs.map (fun v => v.severity))) := by
  induction vs with
  | nil => rfl
  | cons v rest ih =>
      obtain ⟨rid, rname, sev, msg, tvk, ad, aw, cv, lv, sg⟩ := v
      simp only [SBP.overallStatus, List.any_cons, List.map_cons, SBP.maxSeverityD,
        List.foldr_cons] at ih ⊢
      cases sev
      case ERROR =>
        rw [maxSev_error_left]
        simp [SBP.severityToStatus]
      case INFO =>
        rw [maxSev_info_left]
        simpa using ih
      case WARNING =>
        rw [maxSev_warn_left]
        by_cases hE : rest.any (fun v => v.severity == SBP.Severity.ERROR) = true
        · have hmax := (any_severity_error_iff rest).mp hE
          simp only [SBP.maxSeverityD] at hmax
          simp [hE, hmax, SBP.severityToStatus]
        · have hmax : SBP.maxSeverityD (rest.map (fun v => v.severity)) ≠ .ERROR := by
            intro hcontra
            exact hE ((any_severity_error_iff rest).mpr hcontra)
          simp only [SBP.maxSeverityD] at hmax
          simp [hE, hmax, SBP.severityToStatus]

/-- C4: for every validation call, the overall status equals the maximum
severity over the produced violations mapped to a status (ERROR → error,
WARNING → warning, INFO → ok since INFO never affects the overall status),
it defaults to `ok` when no violation is produced, and the overall status
and each violation's severity range over exactly their three enumerated
values. -/
theorem validation_status_is_max_severity (cfg : SBP.EngineConfig)
    (store : List SBP.SBPEvent) (duty : SBP.SBPEvent) :
    (SBP.validate cfg store duty).status =
      SBP.severityToStatus
        (SBP.maxSeverityD ((SBP.validate cfg store duty).violations.map
          (fun v => v.severity))) ∧
    ((SBP.validate cfg store duty).violations = [] →
      (SBP.validate cfg store duty).status = .ok) ∧
    ((SBP.validate cfg store duty).status = .ok ∨
     (SBP.validate cfg store duty).status = .warning ∨
     (SBP.validate cfg store duty).status = .error) ∧
    (∀ v ∈ (SBP.validate cfg store duty).violations,
      v.severity = .ERROR ∨ v.severity = .WARNING ∨ v.severity = .INFO) := by
  have hs : (SBP.validate cfg store duty).status =
      SBP.overallStatus (SBP.validate cfg store duty).violations := rfl
  refine ⟨?_, ?_, ?_, ?_⟩
  · rw [hs]
    exact overallStatus_eq_max _
  · intro h
    rw [hs, h]
    rfl
  · cases h : (SBP.validate cfg store duty).status <;> simp
  · intro v _
    cases h : v.severity <;> simp

/-- Witness for C4 at a concrete configuration (limit 4, possible weight
one half), an empty store and a single `moeglich` candidate duty. -/
theorem validation_status_is_max_severity_witness :
    (SBP.validate ⟨1/2, fun _ => 4⟩ [] ⟨1, 4, "Probe", "SBP", .moeglich⟩).status =
      SBP.severityToStatus
        (SBP.maxSeverityD ((SBP.validate ⟨1/2, fun _ => 4⟩ []
          ⟨1, 4, "Probe", "SBP", .moeglich⟩).violations.map (fun v => v.severity))) ∧
    ((SBP.validate ⟨1/2, fun _ => 4⟩ [] ⟨1, 4, "Probe", "SBP", .moeglich⟩).violations = [] →
      (SBP.validate ⟨1/2, fun _ => 4⟩ [] ⟨1, 4, "Probe", "SBP", .moeglich⟩).status = .ok) ∧
    ((SBP.validate ⟨1/2, fun _ => 4⟩ [] ⟨1, 4, "Probe", "SBP", .moeglich⟩).status = .ok ∨
     (SBP.validate ⟨1/2, fun _ => 4⟩ [] ⟨1, 4, "Probe", "SBP", .moeglich⟩).status = .warning ∨
     (SBP.validate ⟨1/2, fun _ => 4⟩ [] ⟨1, 4, "Probe", "SBP", .moeglich⟩).status = .error) ∧
    (∀ v ∈ (SBP.validate ⟨1/2, fun _ => 4⟩ []
        ⟨1, 4, "Probe", "SBP", .moeglich⟩).violations,
      v.severity = .ERROR ∨ v.severity = .WARNING ∨ v.severity = .INFO) :=
  validation_status_is_max_severity ⟨1/2, fun _ => 4⟩ [] ⟨1, 4, "Probe", "SBP", .moeglich⟩

/-- C6: validation is pure and stateless — a call leaves the Event Store
state exactly as it was, and a second call on the state left behind by the
first returns the identical ValidationResult. -/
theorem validate_pure_and_stateless (cfg : SBP.EngineConfig)
    (store : List SBP.SBPEvent) (duty : SBP.SBPEvent) :
    (SBP.validateCall cfg store duty).2 = store ∧
    (SBP.validateCall cfg (SBP.validateCall cfg store duty).2 duty).1 =
      (SBP.validateCall cfg store duty).1 :=
  ⟨rfl, rfl⟩

theorem failed_summary_count (oc : SBP.RenderOutcome) (bad : ℤ)
    (roster : List SBP.Member)
    (hbad : oc.individualRenderOk bad = false)
    (hothers : ∀ m ∈ roster, m.member_id ≠ bad →
      oc.individualRenderOk m.member_id = true ∧
      oc.individualConvertOk m.member_id = true) :
    ((roster.map (SBP.mkIndividualSummary oc)).filter
        (fun ip => !ip.has_docx && !ip.has_pdf)).length
      = (roster.map SBP.Member.member_id).count bad := by
  induction roster with
  | nil => simp
  | cons m rest ih =>
      have hrest : ∀ m' ∈ rest, m'.member_id ≠ bad →
          oc.individualRenderOk m'.member_id = true ∧
          oc.individualConvertOk m'.member_id = true :=
        fun m' hm' => hothers m' (List.mem_cons_of_mem _ hm')
      rw [List.map_cons, List.map_cons, List.filter_cons]
      by_cases h : m.member_id = bad
      · have hd : (SBP.mkIndividualSummary oc m).has_docx = false := by
          simp [SBP.mkIndividualSummary, h, hbad]
        have hp : (SBP.mkIndividualSummary oc m).has_pdf = false := by
          simp [SBP.mkIndividualSummary, h, hbad]
        simp [hd, hp, List.count_cons, h, ih hrest]
      · obtain ⟨h1, h2⟩ := hothers m (List.mem_cons_self m rest) h
        have hd : (SBP.mkIndividualSummary oc m).has_docx = true := by
          simp [SBP.mkIndividualSummary, h1]
        simp [hd, List.count_cons, Ne.symm h, ih hrest]

/-- C2: a GeneratedPlan produced by the pipeline is `ready` only if the
collective artifact exists, and one member's failed individual render never
downgrades the parent plan — with a successful collective step and exactly
the member `bad` failing, the plan is still `ready`, that member's summary
has both artifact flags false, every other member's summary has both flags
true, and exactly one summary in the list has both flags false. -/
theorem generatedPlan_partial_failure_isolation (oc : SBP.RenderOutcome)
    (roster : List SBP.Member) (plan : SBP.GeneratedPlan) (bad : ℤ)
    (hcr : oc.collectiveRenderOk = true) (hcc : oc.collectiveConvertOk = true)
    (hbad : oc.individualRenderOk bad = false)
    (hothers : ∀ m ∈ roster, m.member_id ≠ bad →
      oc.individualRenderOk m.member_id = true ∧
      oc.individualConvertOk m.member_id = true)
    (hnodup : (roster.map SBP.Member.member_id).Nodup)
    (hmem : bad ∈ roster.map SBP.Member.member_id) :
    (∀ (oc2 : SBP.RenderOutcome) (roster2 : List SBP.Member)
        (plan2 : SBP.GeneratedPlan),
      (SBP.runGeneration oc2 roster2 plan2).status = .ready →
      (SBP.runGeneration oc2 roster2 plan2).has_collective_docx = true ∧
      (SBP.runGeneration oc2 roster2 plan2).has_collective_pdf = true) ∧
    (SBP.runGeneration oc roster plan).status = .ready ∧
    (∀ ip ∈ (SBP.runGeneration oc roster plan).individual_plans,
      (ip.id = bad → ip.has_docx = false ∧ ip.has_pdf = false) ∧
      (ip.id ≠ bad → ip.has_docx = true ∧ ip.has_pdf = true)) ∧
    ((SBP.runGeneration oc roster plan).individual_plans.filter
      (fun ip => !ip.has_docx && !ip.has_pdf)).length = 1 := by
  have hcol : (oc.collectiveRenderOk && oc.collectiveConvertOk) = true := by
    rw [hcr, hcc]
    rfl
  refine ⟨?_, ?_, ?_, ?_⟩
  · intro oc2 roster2 plan2 h
    by_cases hc2 : (oc2.collectiveRenderOk && oc2.collectiveConvertOk) = true
    · simp [SBP.runGeneration, hc2]
    · simp [SBP.runGeneration, hc2] at h
  · simp [SBP.runGeneration, hcol]
  · intro ip hip
    simp only [SBP.runGeneration, hcol, if_true] at hip
    rw [List.mem_map] at hip
    obtain ⟨m, hm, rfl⟩ := hip
    constructor
    · intro hid
      have hmb : m.member_id = bad := hid
      constructor <;> simp [SBP.mkIndividualSummary, hmb, hbad]
    · intro hid
      have hne : m.member_id ≠ bad := hid
      obtain ⟨h1, h2⟩ := hothers m hm hne
      constructor <;> simp [SBP.mkIndividualSummary, h1, h2]
  · simp only [SBP.runGeneration, hcol, if_true]
    rw [failed_summary_count oc bad roster hbad hothers]
    exact List.count_eq_one_of_mem hnodup hmem

/-- Witness for C2: collective success, member 2 of a three-member roster
(one slot vacant) failing its individual render, members 1 and 3 succeeding. -/
theorem generatedPlan_partial_failure_isolation_witness :
    (∀ (oc2 : SBP.RenderOutcome) (roster2 : List SBP.Member)
        (plan2 : SBP.GeneratedPlan),
      (SBP.runGeneration oc2 roster2 plan2).status = .ready →
      (SBP.runGeneration oc2 roster2 plan2).has_collective_docx = true ∧
      (SBP.runGeneration oc2 roster2 plan2).has_collective_pdf = true) ∧
    (SBP.runGeneration
        ⟨true, true, fun i => decide (i ≠ 2), fun _ => true⟩
        [⟨1, "Anna Maier", false⟩, ⟨2, "Jo Berg", false⟩, ⟨3, "Vakant", true⟩]
        ⟨0, none, 0, 30, .pending, false, false, 0, 0, []⟩).status = .ready ∧
    (∀ ip ∈ (SBP.runGeneration
        ⟨true, true, fun i => decide (i ≠ 2), fun _ => true⟩
        [⟨1, "Anna Maier", false⟩, ⟨2, "Jo Berg", false⟩, ⟨3, "Vakant", true⟩]
        ⟨0, none, 0, 30, .pending, false, false, 0, 0, []⟩).individual_plans,
      (ip.id = 2 → ip.has_docx = false ∧ ip.has_pdf = false) ∧
      (ip.id ≠ 2 → ip.has_docx = true ∧ ip.has_pdf = true)) ∧
    ((SBP.runGeneration
        ⟨true, true, fun i => decide (i ≠ 2), fun _ => true⟩
        [⟨1, "Anna Maier", false⟩, ⟨2, "Jo Berg", false⟩, ⟨3, "Vakant", true⟩]
        ⟨0, none, 0, 30, .pending, false, false, 0, 0, []⟩).individual_plans.filter
      (fun ip => !ip.has_docx && !ip.has_pdf)).length = 1 :=
  generatedPlan_partial_failure_isolation
    ⟨true, true, fun i => decide (i ≠ 2), fun _ => true⟩
    [⟨1, "Anna Maier", false⟩, ⟨2, "Jo Berg", false⟩, ⟨3, "Vakant", true⟩]
    ⟨0, none, 0, 30, .pending, false, false, 0, 0, []⟩ 2
    (by decide) (by decide) (by decide) (by decide) (by decide) (by decide)

theorem runGeneration_id (oc : SBP.RenderOutcome) (roster : List SBP.Member)
    (plan : SBP.GeneratedPlan) :
    (SBP.runGeneration oc roster plan).id = plan.id := by
  unfold SBP.runGeneration
  split <;> rfl

theorem generate_fst_id (oc : SBP.RenderOutcome) (roster : List SBP.Member)
    (sid : Option ℤ) (ds de now : ℤ) (reg : SBP.Registry) :
    (SBP.generate oc roster sid ds de now reg).1.id = reg.nextId := by
  unfold SBP.generate
  rw [runGeneration_id]

theorem generate_snd_nextId (oc : SBP.RenderOutcome) (roster : List SBP.Member)
    (sid : Option ℤ) (ds de now : ℤ) (reg : SBP.Registry) :
    (SBP.generate oc roster sid ds de now reg).2.nextId = reg.nextId + 1 := rfl

theorem generate_snd_plans (oc : SBP.RenderOutcome) (roster : List SBP.Member)
    (sid : Option ℤ) (ds de now : ℤ) (reg : SBP.Registry) :
    (SBP.generate oc roster sid ds de now reg).2.plans =
      reg.plans ++ [(SBP.generate oc roster sid ds de now reg).1] := rfl

/-- C7: two generation requests for the identical date range create two
GeneratedPlans with distinct identities, and each is independently
retrievable from the registry by its own identity — no deduplication. -/
theorem generate_twice_distinct_plans (oc1 oc2 : SBP.RenderOutcome)
    (r1 r2 : List SBP.Member) (sid : Option ℤ) (ds de now1 now2 : ℤ)
    (reg : SBP.Registry) (hwf : reg.WF) :
    (SBP.generate oc1 r1 sid ds de now1 reg).1.id ≠
      (SBP.generate oc2 r2 sid ds de now2
        (SBP.generate oc1 r1 sid ds de now1 reg).2).1.id ∧
    SBP.getPlan (SBP.generate oc2 r2 sid ds de now2
        (SBP.generate oc1 r1 sid ds de now1 reg).2).2
      ((SBP.generate oc1 r1 sid ds de now1 reg).1.id) =
      some (SBP.generate oc1 r1 sid ds de now1 reg).1 ∧
    SBP.getPlan (SBP.generate oc2 r2 sid ds de now2
        (SBP.generate oc1 r1 sid ds de now1 reg).2).2
      ((SBP.generate oc2 r2 sid ds de now2
        (SBP.generate oc1 r1 sid ds de now1 reg).2).1.id) =
      some (SBP.generate oc2 r2 sid ds de now2
        (SBP.generate oc1 r1 sid ds de now1 reg).2).1 := by
  have hid1 : (SBP.generate oc1 r1 sid ds de now1 reg).1.id = reg.nextId :=
    generate_fst_id oc1 r1 sid ds de now1 reg
  have hid2 : (SBP.generate oc2 r2 sid ds de now2
      (SBP.generate oc1 r1 sid ds de now1 reg).2).1.id = reg.nextId + 1 := by
    rw [generate_fst_id, generate_snd_nextId]
  have hplans : (SBP.generate oc2 r2 sid ds de now2
      (SBP.generate oc1 r1 sid ds de now1 reg).2).2.plans =
      (reg.plans ++ [(SBP.generate oc1 r1 sid ds de now1 reg).1]) ++
        [(SBP.generate oc2 r2 sid ds de now2
          (SBP.generate oc1 r1 sid ds de now1 reg).2).1] := by
    rw [generate_snd_plans, generate_snd_plans]
  refine ⟨?_, ?_, ?_⟩
  · rw [hid1, hid2]
    omega
  · unfold SBP.getPlan
    rw [hplans, List.find?_append, List.find?_append]
    have hnone : reg.plans.find?
        (fun p => p.id == (SBP.generate oc1 r1 sid ds de now1 reg).1.id) = none := by
      rw [List.find?_eq_none]
      intro p hp
      rw [hid1]
      simp only [beq_iff_eq]
      exact Int.ne_of_lt (hwf p hp)
    have hhit : [(SBP.generate oc1 r1 sid ds de now1 reg).1].find?
        (fun p => p.id == (SBP.generate oc1 r1 sid ds de now1 reg).1.id) =
        some (SBP.generate oc1 r1 sid ds de now1 reg).1 :=
      List.find?_cons_of_pos _ (by simp)
    rw [hnone, hhit]
    rfl
  · unfold SBP.getPlan
    rw [hplans, List.find?_append, List.find?_append]
    have hnone : reg.plans.find?
        (fun p => p.id == (SBP.generate oc2 r2 sid ds de now2
          (SBP.generate oc1 r1 sid ds de now1 reg).2).1.id) = none := by
      rw [List.find?_eq_none]
      intro p hp
      rw [hid2]
      simp only [beq_iff_eq]
      have := hwf p hp
      omega
    have hnone1 : [(SBP.generate oc1 r1 sid ds de now1 reg).1].find?
        (fun p => p.id == (SBP.generate oc2 r2 sid ds de now2
          (SBP.generate oc1 r1 sid ds de now1 reg).2).1.id) = none := by
      rw [List.find?_eq_none]
      intro p hp
      rw [List.mem_singleton] at hp
      subst hp
      rw [hid1, hid2]
      simp only [beq_iff_eq]
      omega
    have hhit : [(SBP.generate oc2 r2 sid ds de now2
        (SBP.generate oc1 r1 sid ds de now1 reg).2).1].find?
        (fun p => p.id == (SBP.generate oc2 r2 sid ds de now2
          (SBP.generate oc1 r1 sid ds de now1 reg).2).1.id) =
        some (SBP.generate oc2 r2 sid ds de now2
          (SBP.generate oc1 r1 sid ds de now1 reg).2).1 :=
      List.find?_cons_of_pos _ (by simp)
    rw [hnone, hnone1, hhit]
    rfl

/-- Witness for C7: two generations for the range 0–30 against the empty
registry yield plans with identities 0 and 1, each retrievable. -/
theorem generate_twice_distinct_plans_witness :
    (SBP.generate ⟨true, true, fun _ => true, fun _ => true⟩ [] none 0 30 5
        ⟨0, []⟩).1.id ≠
      (SBP.generate ⟨true, true, fun _ => true, fun _ => true⟩ [] none 0 30 6
        (SBP.generate ⟨true, true, fun _ => true, fun _ => true⟩ [] none 0 30 5
          ⟨0, []⟩).2).1.id ∧
    SBP.getPlan (SBP.generate ⟨true, true, fun _ => true, fun _ => true⟩ [] none 0 30 6
        (SBP.generate ⟨true, true, fun _ => true, fun _ => true⟩ [] none 0 30 5
          ⟨0, []⟩).2).2
      ((SBP.generate ⟨true, true, fun _ => true, fun _ => true⟩ [] none 0 30 5
        ⟨0, []⟩).1.id) =
      some (SBP.generate ⟨true, true, fun _ => true, fun _ => true⟩ [] none 0 30 5
        ⟨0, []⟩).1 ∧
    SBP.getPlan (SBP.generate ⟨true, true, fun _ => true, fun _ => true⟩ [] none 0 30 6
        (SBP.generate ⟨true, true, fun _ => true, fun _ => true⟩ [] none 0 30 5
          ⟨0, []⟩).2).2
      ((SBP.generate ⟨true, true, fun _ => true, fun _ => true⟩ [] none 0 30 6
        (SBP.generate ⟨true, true, fun _ => true, fun _ => true⟩ [] none 0 30 5
          ⟨0, []⟩).2).1.id) =
      some (SBP.generate ⟨true, true, fun _ => true, fun _ => true⟩ [] none 0 30 6
        (SBP.generate ⟨true, true, fun _ => true, fun _ => true⟩ [] none 0 30 5
          ⟨0, []⟩).2).1 :=
  generate_twice_distinct_plans ⟨true, true, fun _ => true, fun _ => true⟩
    ⟨true, true, fun _ => true, fun _ => true⟩ [] [] none 0 30 5 6 ⟨0, []⟩
    (fun p hp => absurd hp (List.not_mem_nil p))
